import Mathlib

/-!
Verification development for the multi-provider LLM gateway of
`unified_llm.py` (class `UnifiedLLM` and its helper class `ProviderState`).

The Python module is shallowly embedded as follows:

* `ProviderState` becomes a Lean structure with the same fields; the
  in-place mutating methods (`mark_success`, `mark_failure`, the
  `available` property) become pure functions from the old record (and the
  current time) to the new record.  `time.time()` is modelled by an
  explicit `now : Nat` argument: each Python method reads the clock once
  conceptually, so a single `now` parameter per call is used.
* The pool `self.keys : List[ProviderState]` becomes `List ProviderState`;
  `_get_available_keys` returns both the sorted candidate list and the
  post-traversal pool (the Python `available` property heals records in
  place while the list comprehension iterates).
* Python's stable Timsort on the key tuple
  `(pref_idx, failures, last_used)` is modelled with Mathlib's stable
  `List.insertionSort` over the lexicographic order `keyLE`; a stable sort's
  output is uniquely determined by the ordering and the input order, so the
  two sorts agree.
* The network adapters (`_call_openai_compatible`, `_call_gemini`,
  `_call_zhipuai`) are abstracted by an `oracle : ProviderState → CallResult`
  giving, per attempted key, what the adapter call does: returns a value
  (`ok`, possibly `none` or the empty string, both falsy in Python), raises
  `urllib.error.HTTPError` with a status code (`httpError`), or raises any
  other exception (`exn`).
* `generate` returns a `GenOut` record: the Python return value
  (`Option String`), the trace of adapter invocations made (`attempts`),
  the `logger.error` lines emitted by `generate` itself (`logs`; the
  `logger.info`/`logger.warning` lines and the logging inside
  `mark_failure` are omitted, as no claim depends on them), and the final
  states of the candidate records (`states`).  On the empty-candidates path
  `states` is the healed pool; on the loop path it is the candidate list
  with the per-attempt mutations applied (records filtered out as
  unavailable are unchanged by the loop and are not repeated there).
* Environment access `os.environ.get(var, '')` is modelled by an
  association list `List (String × String)`; `str.strip` and
  `str.split(',')` are re-implemented character-wise (`pyStrip`,
  `pySplit`) so that everything reduces in the kernel.
* `random.shuffle(self.keys)` at the end of `_load_all_keys` is a
  permutation of the pool and is not modelled: every property proved below
  is either order-independent (deduplication, distinctness) or quantified
  over an arbitrary pool order.
-/

/-- Mirrors the Python class `ProviderState` ("track state for a single API
key"): constructor fields plus the mutable health fields with their initial
values `failures = 0`, `last_used = 0.0`, `disabled = False`,
`disable_until = 0.0`.  Timestamps are modelled as `Nat`. -/
structure ProviderState where
  provider : String
  key : String
  index : Nat
  failures : Nat
  last_used : Nat
  disabled : Bool
  disable_until : Nat
deriving DecidableEq

/-- Mirrors `ProviderState.__init__(provider, key, index)`. -/
def ProviderState.mk0 (provider key : String) (index : Nat) : ProviderState :=
  ⟨provider, key, index, 0, 0, false, 0⟩

/-- Mirrors the property `ProviderState.available`.  It both *mutates*
(when a cooldown has elapsed it clears `disabled` and resets `failures`)
and returns a boolean, so it is modelled as returning the new record
together with the returned boolean. -/
def ProviderState.available (s : ProviderState) (now : Nat) : ProviderState × Bool :=
  if s.disabled ∧ now < s.disable_until then (s, false)
  else if s.disabled ∧ s.disable_until ≤ now then
    ({ s with disabled := false, failures := 0 }, true)
  else (s, !s.disabled)

/-- Mirrors `ProviderState.mark_success`: reset the failure counter and
touch `last_used`. -/
def ProviderState.mark_success (s : ProviderState) (now : Nat) : ProviderState :=
  { s with failures := 0, last_used := now }

/-- Mirrors `ProviderState.mark_failure(error_code)`: increment `failures`,
touch `last_used`, then disable according to the error class.  Note the
429 backoff `min(600, 30 * 2 ** self.failures)` reads the *already
incremented* counter. -/
def ProviderState.mark_failure (s : ProviderState) (error_code now : Nat) : ProviderState :=
  let s' := { s with failures := s.failures + 1, last_used := now }
  if error_code = 401 ∨ error_code = 403 then
    { s' with disabled := true, disable_until := now + 3600 }
  else if error_code = 429 then
    { s' with disable_until := now + min 600 (30 * 2 ^ s'.failures), disabled := true }
  else if 3 ≤ s'.failures then
    { s' with disabled := true, disable_until := now + 300 }
  else s'

/-- Static per-provider configuration, mirroring the entries of the
module-level `PROVIDERS` dict that the claims depend on (the networking
fields `base_url`, `models`, `rpm` only affect the HTTP layer, which is
abstracted by the oracle, and are omitted). -/
structure ProviderConfig where
  name : String
  env_keys : List String
  env_numbered : String
  max_numbered : Nat
deriving DecidableEq

/-- The `PROVIDERS` table, in Python dict insertion order. -/
def PROVIDERS : List ProviderConfig :=
  [⟨"groq", ["GROQ_API_KEYS", "GROQ_API_KEY"], "GROQ_API_KEY_", 10⟩,
   ⟨"nvidia", ["NVIDIA_API_KEYS", "NVIDIA_API_KEY"], "NVIDIA_API_KEY_", 5⟩,
   ⟨"openrouter", ["OPENROUTER_API_KEYS", "OPENROUTER_API_KEY"], "OPENROUTER_API_KEY_", 10⟩,
   ⟨"mistral", ["MISTRAL_API_KEYS", "MISTRAL_API_KEY"], "MISTRAL_API_KEY_", 5⟩,
   ⟨"deepseek", ["DEEPSEEK_API_KEYS", "DEEPSEEK_API_KEY"], "DEEPSEEK_API_KEY_", 10⟩,
   ⟨"zhipuai", ["ZHIPUAI_API_KEYS", "ZHIPUAI_API_KEY", "GLM_API_KEY"], "ZHIPUAI_API_KEY_", 10⟩,
   ⟨"gemini", ["GEMINI_API_KEYS", "GEMINI_API_KEY", "GOOGLE_API_KEY"], "GEMINI_API_KEY_", 10⟩]

/-- Default `preferred_providers`, mirroring `list(PROVIDERS.keys())` in
`UnifiedLLM.__init__`. -/
def defaultPrefs : List String := PROVIDERS.map ProviderConfig.name

/-- Mirrors the inner `sort_key` helper of `_get_available_keys`:
`self.preferred_providers.index(k.provider) if k.provider in
self.preferred_providers else 99`. -/
def prefIndex (prefs : List String) (p : String) : Nat :=
  if p ∈ prefs then prefs.indexOf p else 99

/-- The ordering Python's stable sort applies to the tuple
`(pref_idx, k.failures, k.last_used)`: lexicographic `≤`. -/
def keyLE (prefs : List String) (a b : ProviderState) : Prop :=
  prefIndex prefs a.provider < prefIndex prefs b.provider ∨
    (prefIndex prefs a.provider = prefIndex prefs b.provider ∧
      (a.failures < b.failures ∨
        (a.failures = b.failures ∧ a.last_used ≤ b.last_used)))

instance keyLE_decidable (prefs : List String) : DecidableRel (keyLE prefs) := fun a b =>
  inferInstanceAs (Decidable
    (prefIndex prefs a.provider < prefIndex prefs b.provider ∨
      (prefIndex prefs a.provider = prefIndex prefs b.provider ∧
        (a.failures < b.failures ∨
          (a.failures = b.failures ∧ a.last_used ≤ b.last_used)))))

instance keyLE_total (prefs : List String) : IsTotal ProviderState (keyLE prefs) :=
  ⟨fun a b => by unfold keyLE; omega⟩

instance keyLE_trans (prefs : List String) : IsTrans ProviderState (keyLE prefs) :=
  ⟨fun a b c hab hbc => by unfold keyLE at hab hbc ⊢; omega⟩

/-- Mirrors `UnifiedLLM._get_available_keys` (plus the in-place healing it
triggers): first component is the returned sorted candidate list, second
component is the pool after every record's `available` property has run. -/
def get_available_keys (keys : List ProviderState) (prefs : List String) (now : Nat) :
    List ProviderState × List ProviderState :=
  let checked := keys.map (fun k => k.available now)
  let avail := (checked.filter (fun p => p.2)).map Prod.fst
  (List.insertionSort (keyLE prefs) avail, checked.map Prod.fst)

/-- Mirrors the `status` property: per-provider counts
`(total, available, disabled)` — the Python dict is modelled as a function
from provider name to the triple — together with the pool after the
healing that evaluating `available` on every record causes. -/
def UnifiedLLM.status (keys : List ProviderState) (now : Nat) :
    (String → Nat × Nat × Nat) × List ProviderState :=
  (fun p =>
    ((keys.filter (fun k => k.provider == p)).length,
     (keys.filter (fun k => k.provider == p && (k.available now).2)).length,
     (keys.filter (fun k => k.provider == p && !(k.available now).2)).length),
   keys.map (fun k => (k.available now).1))

/-- Character-wise model of Python `str.strip()` (drop leading and
trailing whitespace). -/
def pyStrip (s : String) : String :=
  String.mk (((s.data.dropWhile Char.isWhitespace).reverse.dropWhile
    Char.isWhitespace).reverse)

/-- Helper for `pySplit`: walk the characters, cutting at the separator. -/
def pySplitAux (c : Char) : List Char → List Char → List String
  | [], acc => [String.mk acc.reverse]
  | x :: xs, acc =>
    if x = c then String.mk acc.reverse :: pySplitAux c xs []
    else pySplitAux c xs (x :: acc)

/-- Character-wise model of Python `str.split(c)` for a one-character
separator (`"".split(',') == ['']`, `"a,b".split(',') == ['a','b']`). -/
def pySplit (s : String) (c : Char) : List String :=
  pySplitAux c s.data []

/-- Model of `os.environ.get(var, '')` over an association-list
environment (first binding wins). -/
def envGet (env : List (String × String)) (v : String) : String :=
  match env with
  | [] => ""
  | (name, val) :: rest => if name = v then val else envGet rest v

/-- Model of `keys_found.add(k)` for the Python `set`: membership-checked
insertion.  Python set iteration order is unspecified; this keeps first
insertion order, a legitimate observation of the set (every property
proved about the loader is order-independent). -/
def addKey (ks : List String) (k : String) : List String :=
  if k ∈ ks then ks else ks ++ [k]

/-- The inner CSV loop of `_load_all_keys`:
`for k in val.split(','): k = k.strip(); if k and len(k) > 10:
keys_found.add(k)`. -/
def addCsvVal (ks : List String) (val : String) : List String :=
  (pySplit val ',').foldl
    (fun acc kRaw =>
      let k := pyStrip kRaw
      if k ≠ "" ∧ 10 < k.length then addKey acc k else acc) ks

/-- Format 1 of `_load_all_keys`: for each variable in `config['env_keys']`,
read, strip, and if non-empty split on commas. -/
def collectListForm (env : List (String × String)) (vars : List String)
    (ks : List String) : List String :=
  vars.foldl
    (fun acc v =>
      let val := pyStrip (envGet env v)
      if val ≠ "" then addCsvVal acc val else acc) ks

/-- Format 2 of `_load_all_keys`: numbered variables `PREFIX1..PREFIXmax`
(`for i in range(1, max_numbered + 1)`); `i` is the next index to probe and
`fuel` the number of indices left. -/
def collectNumbered (env : List (String × String)) (pre : String) :
    Nat → Nat → List String → List String
  | _, 0, ks => ks
  | i, fuel + 1, ks =>
    let val := pyStrip (envGet env (pre ++ Nat.repr i))
    let ks' := if val ≠ "" ∧ 10 < val.length then addKey ks val else ks
    collectNumbered env pre (i + 1) fuel ks'

/-- The per-provider `keys_found` set of `_load_all_keys`. -/
def collectKeys (cfg : ProviderConfig) (env : List (String × String)) : List String :=
  collectNumbered env cfg.env_numbered 1 cfg.max_numbered
    (collectListForm env cfg.env_keys [])

/-- `for idx, key in enumerate(keys_found): ProviderState(provider, key,
idx + 1)`. -/
def mkRecords (p : String) : Nat → List String → List ProviderState
  | _, [] => []
  | i, k :: ks => ProviderState.mk0 p k (i + 1) :: mkRecords p (i + 1) ks

/-- The provider loop of `_load_all_keys`, generalized over the provider
table for induction. -/
def loadConfigs (env : List (String × String)) : List ProviderConfig → List ProviderState
  | [] => []
  | cfg :: rest => mkRecords cfg.name 0 (collectKeys cfg env) ++ loadConfigs env rest

/-- Mirrors `UnifiedLLM._load_all_keys` (minus the final
`random.shuffle`, a permutation — see the header comment). -/
def load_all_keys (env : List (String × String)) : List ProviderState :=
  loadConfigs env PROVIDERS

/-- What one adapter invocation inside `generate` does, abstracting the
three `_call_*` methods: return a value (possibly `None` or empty — the
falsy cases of `if result:`), raise `urllib.error.HTTPError` with a status
code, or raise some other exception. -/
inductive CallResult where
  | ok (text : Option String)
  | httpError (code : Nat)
  | exn
deriving DecidableEq

/-- Python truthiness of the adapter's `Optional[str]` return value, as
tested by `if result:`. -/
def truthy : Option String → Bool
  | some s => s ≠ ""
  | none => false

/-- A call outcome that does not take the `if result:` success branch. -/
def failedCall : CallResult → Bool
  | .ok t => !truthy t
  | _ => true

/-- Error log of the empty-candidates path of `generate`. -/
def noKeysMsg : String := "❌ All API keys exhausted or rate-limited!"

/-- Error log of the exhausted-loop path of `generate`. -/
def allFailedMsg : String := "❌ ALL providers failed for this request"

/-- Observable outcome of one `generate` call: the Python return value,
the adapter invocations made (provider of the attempted key paired with
what the call did), the `logger.error` lines emitted by `generate`, and
the final states of the candidate records. -/
structure GenOut where
  result : Option String
  attempts : List (String × CallResult)
  logs : List String
  states : List ProviderState
deriving DecidableEq

/-- The `for key_state in available:` loop of `generate`: first success
returns immediately after `mark_success`; a falsy result falls through
with *no* state change; `HTTPError` triggers `mark_failure(e.code)`; any
other exception triggers `mark_failure()` (default code 0). -/
def genLoop (oracle : ProviderState → CallResult) (now : Nat) :
    List ProviderState → GenOut
  | [] => ⟨none, [], [], []⟩
  | k :: rest =>
    match oracle k with
    | .ok t =>
      if truthy t then
        ⟨t, [(k.provider, .ok t)], [], k.mark_success now :: rest⟩
      else
        let o := genLoop oracle now rest
        ⟨o.result, (k.provider, .ok t) :: o.attempts, o.logs, k :: o.states⟩
    | .httpError c =>
      let o := genLoop oracle now rest
      ⟨o.result, (k.provider, .httpError c) :: o.attempts, o.logs,
        k.mark_failure c now :: o.states⟩
    | .exn =>
      let o := genLoop oracle now rest
      ⟨o.result, (k.provider, .exn) :: o.attempts, o.logs,
        k.mark_failure 0 now :: o.states⟩

/-- Mirrors `UnifiedLLM.generate`: compute the candidate list (healing the
pool as a side effect), return `None` at once if it is empty, otherwise
run the failover loop; if the loop ends without a success, log the
exhaustion error and return `None`. -/
def generate (oracle : ProviderState → CallResult) (keys : List ProviderState)
    (prefs : List String) (now : Nat) : GenOut :=
  let p := get_available_keys keys prefs now
  if p.1.isEmpty then ⟨none, [], [noKeysMsg], p.2⟩
  else
    let o := genLoop oracle now p.1
    if o.result.isSome then o
    else ⟨o.result, o.attempts, o.logs ++ [allFailedMsg], o.states⟩

/-- A freshly loaded groq key (constructor state). -/
def groqFresh : ProviderState := ProviderState.mk0 "groq" "groqsecretABCD" 1

/-- A freshly loaded nvidia key (constructor state). -/
def nvidiaFresh : ProviderState := ProviderState.mk0 "nvidia" "nvidiasecret01" 1

/-- A groq key in cooling-down: 2 failures, disabled until instant 50. -/
def kCooling : ProviderState := ⟨"groq", "groqsecretABCD", 1, 2, 0, true, 50⟩

/-- `kCooling` after its cooldown heals (what `available` rewrites it to). -/
def kHealed : ProviderState := ⟨"groq", "groqsecretABCD", 1, 0, 0, false, 50⟩

/-- Available groq key with 2 failures, last used at instant 1. -/
def pA : ProviderState := ⟨"groq", "groqkeyAAAAAAA", 1, 2, 1, false, 0⟩

/-- Available groq key with 0 failures, last used at instant 5. -/
def pB : ProviderState := ⟨"groq", "groqkeyBBBBBBB", 2, 0, 5, false, 0⟩

/-- Environment supplying the same groq secret via the list-form variable
and a numbered variable. -/
def envDup : List (String × String) :=
  [("GROQ_API_KEYS", "groqsecretABCD"), ("GROQ_API_KEY_1", "groqsecretABCD")]

/-- Environment supplying one identical secret to two different
providers. -/
def envCross : List (String × String) :=
  [("GROQ_API_KEY", "sharedsecret99"), ("NVIDIA_API_KEY", "sharedsecret99")]

/-- Adapter behaviour: every call returns without exception but with an
empty body (falsy `result`). -/
def oracleEmptyBody : ProviderState → CallResult := fun _ => CallResult.ok (some "")

/-- Adapter behaviour: every call raises `HTTPError` 500. -/
def oracleHttp500 : ProviderState → CallResult := fun _ => CallResult.httpError 500

/-- Adapter behaviour: every call raises `HTTPError` 429. -/
def oracleHttp429 : ProviderState → CallResult := fun _ => CallResult.httpError 429

/-!  Helper lemmas (shared; none of them is a claim theorem).  -/

/-- The boolean returned by the `available` property, characterized:
true exactly when the record is not flagged disabled or its
disabled-until instant has been reached. -/
theorem available_snd_iff (s : ProviderState) (now : Nat) :
    ((s.available now).2 = true) ↔ (s.disabled = false ∨ s.disable_until ≤ now) := by
  unfold ProviderState.available
  rcases hd : s.disabled
  · simp [hd]
  · rcases Nat.lt_or_ge now s.disable_until with h | h
    · simp only [hd, true_and, if_pos h]
      simp
      omega
    · rw [if_neg (by simp [hd]; omega), if_pos (by simp [hd]; omega)]
      simp [hd]
      omega

/-- Whenever `available` answers true, the record it leaves behind has its
disabled flag cleared. -/
theorem available_true_disabled_false (s : ProviderState) (now : Nat)
    (h : (s.available now).2 = true) : ((s.available now).1).disabled = false := by
  unfold ProviderState.available at *
  rcases hd : s.disabled
  · simp_all
  · rcases Nat.lt_or_ge now s.disable_until with h' | h'
    · simp_all
    · rw [if_neg (by simp [hd]; omega), if_pos (by simp [hd]; omega)]

/-- Every candidate `_get_available_keys` returns arises from some pool
record whose `available` check returned it with flag `true`. -/
theorem mem_candidates (keys : List ProviderState) (prefs : List String) (now : Nat)
    (k : ProviderState) (h : k ∈ (get_available_keys keys prefs now).1) :
    ∃ k0 ∈ keys, k0.available now = (k, true) := by
  rw [show (get_available_keys keys prefs now).1 =
      List.insertionSort (keyLE prefs)
        (((keys.map (fun k => k.available now)).filter (fun p => p.2)).map Prod.fst)
    from rfl, List.mem_insertionSort] at h
  obtain ⟨p, hp, rfl⟩ := List.mem_map.mp h
  obtain ⟨hp1, hp2⟩ := List.mem_filter.mp hp
  obtain ⟨k0, hk0, rfl⟩ := List.mem_map.mp hp1
  exact ⟨k0, hk0, by rw [← hp2]⟩

/-- The first, unconditional step of `mark_failure` in equation form:
failures incremented by one, `last_used` set to the call time, regardless
of the error code. -/
theorem mark_failure_core (s : ProviderState) (c now : Nat) :
    (s.mark_failure c now).failures = s.failures + 1 ∧
      (s.mark_failure c now).last_used = now := by
  constructor <;>
    (simp only [ProviderState.mark_failure]; repeat (first | rfl | split))

/-- The 429 branch of `mark_failure` in equation form. -/
theorem mark_failure_429 (s : ProviderState) (now : Nat) :
    s.mark_failure 429 now =
      { s with failures := s.failures + 1, last_used := now,
               disable_until := now + min 600 (30 * 2 ^ (s.failures + 1)),
               disabled := true } := by
  unfold ProviderState.mark_failure
  norm_num

/-- C10: every call to `mark_failure`, whatever the error code (including
401/403 and 429), increments the record's failure counter by exactly one
and sets its `last_used` timestamp to the current time. -/
theorem mark_failure_increments_and_touches (s : ProviderState) (c now : Nat) :
    (s.mark_failure c now).failures = s.failures + 1 ∧
      (s.mark_failure c now).last_used = now :=
  mark_failure_core s c now

/-- C1 counterexample: on a fresh record (prior failure count `f = 0`), a
429 `mark_failure` at time 0 sets `disable_until` to 60, not to
`min(600, 30 * 2 ^ 0) = 30` as the claim states — the backoff is computed
*after* the counter is incremented, not before. -/
theorem rate_limit_backoff_counterexample :
    (groqFresh.mark_failure 429 0).disable_until ≠
      0 + min 600 (30 * 2 ^ groqFresh.failures) := by
  decide

/-- C1 amended: a RateLimited outcome (`mark_failure` with code 429) on a
record with prior failure count `f` disables it until
`now + min(600, 30 * 2 ^ (f + 1))` — the backoff is computed *after* the
failure counter is incremented for this event; applying a second 429
`mark_failure` to the resulting record yields a cooldown of
`min(600, 30 * 2 ^ (f + 2))`, which is never shorter, and strictly longer
unless the first already sat at the 600-second ceiling. -/
theorem rate_limit_backoff_after_increment (s : ProviderState) (now now' : Nat) :
    (s.mark_failure 429 now).disable_until = now + min 600 (30 * 2 ^ (s.failures + 1)) ∧
    (s.mark_failure 429 now).disabled = true ∧
    ((s.mark_failure 429 now).mark_failure 429 now').disable_until =
      now' + min 600 (30 * 2 ^ (s.failures + 2)) ∧
    min 600 (30 * 2 ^ (s.failures + 1)) ≤ min 600 (30 * 2 ^ (s.failures + 2)) ∧
    (min 600 (30 * 2 ^ (s.failures + 1)) = 600 ∨
      min 600 (30 * 2 ^ (s.failures + 1)) < min 600 (30 * 2 ^ (s.failures + 2))) := by
  have hf : (s.mark_failure 429 now).failures = s.failures + 1 := (mark_failure_core s 429 now).1
  have hx : (1 : Nat) ≤ 2 ^ (s.failures + 1) := Nat.one_le_two_pow
  have hp : (2 : Nat) ^ (s.failures + 2) = 2 ^ (s.failures + 1) * 2 := pow_succ 2 (s.failures + 1)
  refine ⟨by rw [mark_failure_429], by rw [mark_failure_429], ?_, by omega, by omega⟩
  rw [mark_failure_429 (s.mark_failure 429 now) now']
  simp [hf]

/-- C4: starting from a healthy record (failure counter 0, not disabled),
`mark_failure` with any non-auth, non-rate-limit code leaves the record
available after the first and second consecutive transient failures; the
third disables it until exactly 300 seconds after that third failure, and
once that instant is reached the record reports available again with its
failure counter reset to 0. -/
theorem transient_failure_threshold (s : ProviderState) (c t1 t2 t3 now : Nat)
    (hc1 : c ≠ 401) (hc2 : c ≠ 403) (hc3 : c ≠ 429)
    (hf : s.failures = 0) (hd : s.disabled = false) :
    ((s.mark_failure c t1).available now).2 = true ∧
    (((s.mark_failure c t1).mark_failure c t2).available now).2 = true ∧
    (((s.mark_failure c t1).mark_failure c t2).mark_failure c t3).disabled = true ∧
    (((s.mark_failure c t1).mark_failure c t2).mark_failure c t3).disable_until = t3 + 300 ∧
    (now < t3 + 300 →
      ((((s.mark_failure c t1).mark_failure c t2).mark_failure c t3).available now).2 = false) ∧
    (t3 + 300 ≤ now →
      ((((s.mark_failure c t1).mark_failure c t2).mark_failure c t3).available now).2 = true ∧
      (((((s.mark_failure c t1).mark_failure c t2).mark_failure c t3).available now).1).failures
        = 0) := by
  have h1 : s.mark_failure c t1 =
      { s with failures := 1, last_used := t1 } := by
    simp [ProviderState.mark_failure, hf, hc1, hc2, hc3]
  have h2 : (s.mark_failure c t1).mark_failure c t2 =
      { s with failures := 2, last_used := t2 } := by
    rw [h1]
    simp [ProviderState.mark_failure, hc1, hc2, hc3]
  have h3 : ((s.mark_failure c t1).mark_failure c t2).mark_failure c t3 =
      { s with failures := 3, last_used := t3, disabled := true, disable_until := t3 + 300 } := by
    rw [h2]
    simp [ProviderState.mark_failure, hc1, hc2, hc3]
  refine ⟨?_, ?_, by rw [h3], by rw [h3], ?_, ?_⟩
  · rw [h1, available_snd_iff]
    exact Or.inl hd
  · rw [h2, available_snd_iff]
    exact Or.inl hd
  · intro hnow
    rw [h3]
    unfold ProviderState.available
    rw [if_pos (by simp; omega)]
  · intro hnow
    rw [h3]
    unfold ProviderState.available
    rw [if_neg (by simp; omega), if_pos (by simp; omega)]
    exact ⟨rfl, rfl⟩

/-- C4 witness: a concrete run — fresh groq key, error code 500, failures
at times 10, 20, 30, availability observed at time 100 (inside the
5-minute window) and implied reset once 330 is reached. -/
theorem transient_failure_threshold_witness :
    ((groqFresh.mark_failure 500 10).available 100).2 = true ∧
    (((groqFresh.mark_failure 500 10).mark_failure 500 20).available 100).2 = true ∧
    (((groqFresh.mark_failure 500 10).mark_failure 500 20).mark_failure 500 30).disabled = true ∧
    (((groqFresh.mark_failure 500 10).mark_failure 500 20).mark_failure 500 30).disable_until
      = 30 + 300 ∧
    (100 < 30 + 300 →
      ((((groqFresh.mark_failure 500 10).mark_failure 500 20).mark_failure 500 30).available
        100).2 = false) ∧
    (30 + 300 ≤ 100 →
      ((((groqFresh.mark_failure 500 10).mark_failure 500 20).mark_failure 500 30).available
        100).2 = true ∧
      (((((groqFresh.mark_failure 500 10).mark_failure 500 20).mark_failure 500 30).available
        100).1).failures = 0) :=
  transient_failure_threshold groqFresh 500 10 20 30 100
    (by decide) (by decide) (by decide) rfl rfl

/-- C2: `_get_available_keys` never returns a record still in cooldown —
every returned candidate has its disabled flag (the "disabled-until is
set" marker) cleared; and the `available` check is true exactly when the
disabled-until is unset (flag false) or already reached, so the instant a
cooldown elapses the record is selectable again. -/
theorem selection_excludes_cooling (keys : List ProviderState) (prefs : List String) (now : Nat) :
    (∀ k ∈ (get_available_keys keys prefs now).1, k.disabled = false) ∧
    (∀ s : ProviderState,
      ((s.available now).2 = true) ↔ (s.disabled = false ∨ s.disable_until ≤ now)) ∧
    (∀ s : ProviderState, s.disable_until ≤ now → (s.available now).2 = true) := by
  refine ⟨?_, fun s => available_snd_iff s now,
    fun s h => (available_snd_iff s now).mpr (Or.inr h)⟩
  intro k hk
  obtain ⟨k0, _, hav⟩ := mem_candidates keys prefs now k hk
  have h := available_true_disabled_false k0 now (by rw [hav])
  rw [hav] at h
  exact h

/-- C2 witness: a key whose cooldown (until instant 50) has elapsed by
time 100 is returned by selection, healed. -/
theorem selection_excludes_cooling_witness : kHealed.disabled = false :=
  (selection_excludes_cooling [kCooling] defaultPrefs 100).1 kHealed (by decide)

/-- C7 counterexample: candidate selection and the status query are *not*
read-only — run on a pool holding one record whose cooldown has elapsed,
both rewrite the pool (they heal the record in place via the `available`
property). -/
theorem selection_mutates_counterexample :
    (get_available_keys [kCooling] defaultPrefs 100).2 ≠ [kCooling] ∧
    (UnifiedLLM.status [kCooling] 100).2 ≠ [kCooling] := by decide

/-- C7 amended: the only mutation the read paths perform is the healing
side effect of the `available` property — both `_get_available_keys` and
`status` rewrite the pool exactly to the per-record `available` image; a
record not in elapsed cooldown is left untouched, one in elapsed cooldown
has its flag cleared and counter zeroed; in particular when no record's
cooldown has elapsed, selection leaves the pool unchanged.  All other
mutation happens only in `mark_success` / `mark_failure`. -/
theorem reads_mutate_only_by_healing (keys : List ProviderState) (prefs : List String) (now : Nat) :
    (get_available_keys keys prefs now).2 = keys.map (fun k => (k.available now).1) ∧
    (UnifiedLLM.status keys now).2 = keys.map (fun k => (k.available now).1) ∧
    (∀ k : ProviderState, ¬(k.disabled = true ∧ k.disable_until ≤ now) →
      (k.available now).1 = k) ∧
    (∀ k : ProviderState, k.disabled = true → k.disable_until ≤ now →
      (k.available now).1 = { k with disabled := false, failures := 0 }) ∧
    ((∀ k ∈ keys, ¬(k.disabled = true ∧ k.disable_until ≤ now)) →
      (get_available_keys keys prefs now).2 = keys) := by
  have h3 : ∀ k : ProviderState, ¬(k.disabled = true ∧ k.disable_until ≤ now) →
      (k.available now).1 = k := by
    intro k h
    unfold ProviderState.available
    rcases hd : k.disabled
    · rw [if_neg (by simp [hd]), if_neg (by simp [hd])]
    · have hnu : ¬ k.disable_until ≤ now := fun hle => h ⟨hd, hle⟩
      rw [if_pos (by simp [hd]; omega)]
  have h1 : (get_available_keys keys prefs now).2 =
      keys.map (fun k => (k.available now).1) := by
    show (keys.map (fun k => k.available now)).map Prod.fst = _
    rw [List.map_map]
    rfl
  refine ⟨h1, rfl, h3, ?_, ?_⟩
  · intro k hk hu
    unfold ProviderState.available
    rw [if_neg (by simp [hk]; omega), if_pos (by simp [hk]; omega)]
  · intro hall
    rw [h1]
    have hmap := List.map_congr_left (fun k hk => h3 k (hall k hk))
    rw [hmap]
    simp

/-- C7 witness: a record whose cooldown elapsed is rewritten by the read
path to its healed form. -/
theorem reads_mutate_only_by_healing_witness :
    (kCooling.available 100).1 = { kCooling with disabled := false, failures := 0 } :=
  (reads_mutate_only_by_healing [kCooling] defaultPrefs 100).2.2.2.1 kCooling rfl (by decide)

/-- C8 counterexample: two available groq records, `pA` last used at 1
with 2 failures, `pB` last used at 5 with 0 failures — selection orders
the *more recently used* `pB` first, because the failure counter is
compared before the last-used timestamp. -/
theorem lru_order_counterexample :
    (get_available_keys [pA, pB] defaultPrefs 10).1 = [pB, pA] ∧
    pA.last_used < pB.last_used := by decide

/-- C8 amended: among available records of the same provider with *equal*
failure counters, selection orders ascending by last-used (least recently
used first); with unequal counters the failure counter dominates the
last-used timestamp. -/
theorem lru_within_provider (keys : List ProviderState) (prefs : List String) (now : Nat) :
    ((get_available_keys keys prefs now).1).Pairwise
      (fun a b => a.provider = b.provider → a.failures = b.failures →
        a.last_used ≤ b.last_used) := by
  have hs : ((get_available_keys keys prefs now).1).Pairwise (keyLE prefs) :=
    List.sorted_insertionSort (keyLE prefs) _
  refine hs.imp ?_
  intro a b hab hp hf
  unfold keyLE at hab
  have hidx : prefIndex prefs a.provider = prefIndex prefs b.provider := by rw [hp]
  omega

/-- C8 amended witness: the sortedness fact on a concrete two-key pool. -/
theorem lru_within_provider_witness :
    ((get_available_keys [pA, pB] defaultPrefs 10).1).Pairwise
      (fun a b => a.provider = b.provider → a.failures = b.failures →
        a.last_used ≤ b.last_used) :=
  lru_within_provider [pA, pB] defaultPrefs 10

/-- Failover-loop induction: when every candidate's adapter call fails
(does not take the `if result:` branch), the loop produces no result and
its attempt trace lists exactly the (provider, outcome) pair of every
candidate, in order. -/
theorem genLoop_all_fail (oracle : ProviderState → CallResult) (now : Nat) :
    ∀ cands : List ProviderState, (∀ k ∈ cands, failedCall (oracle k) = true) →
      (genLoop oracle now cands).result = none ∧
      (genLoop oracle now cands).attempts = cands.map (fun k => (k.provider, oracle k))
  | [], _ => ⟨rfl, rfl⟩
  | k :: rest, h => by
    have hk := h k (List.mem_cons_self k rest)
    have ih := genLoop_all_fail oracle now rest (fun x hx => h x (List.mem_cons_of_mem k hx))
    cases hc : oracle k with
    | ok t =>
      have ht : truthy t = false := by
        rw [hc] at hk
        simpa [failedCall] using hk
      simp [genLoop, hc, ht, ih.1, ih.2]
    | httpError c => simp [genLoop, hc, ih.1, ih.2]
    | exn => simp [genLoop, hc, ih.1, ih.2]

/-- C3 counterexample: with an empty pool `generate` returns `None`, and
with a one-key pool whose only attempt fails it also returns `None` — the
very same value.  The claimed NoCredentialsAvailable condition is *not*
distinct from the ExhaustedPool condition in the returned outcome; the
two paths differ only in the log line emitted. -/
theorem no_creds_vs_exhausted_counterexample :
    (generate oracleHttp500 [] defaultPrefs 0).result = none ∧
    (generate oracleHttp500 [groqFresh] defaultPrefs 0).result = none ∧
    (generate oracleHttp500 [] defaultPrefs 0).result =
      (generate oracleHttp500 [groqFresh] defaultPrefs 0).result := by
  decide

/-- C3 amended: if the candidate sequence is empty at the start,
`generate` fails immediately — it returns `None` having performed zero
adapter call attempts and logs the no-keys error line; the failure is
distinguished from pool exhaustion only by that log message (which does
differ from the exhaustion message), not by the returned value. -/
theorem empty_candidates_immediate (oracle : ProviderState → CallResult)
    (keys : List ProviderState) (prefs : List String) (now : Nat)
    (h : (get_available_keys keys prefs now).1 = []) :
    (generate oracle keys prefs now).result = none ∧
    (generate oracle keys prefs now).attempts = [] ∧
    (generate oracle keys prefs now).logs = [noKeysMsg] ∧
    noKeysMsg ≠ allFailedMsg := by
  have hg : generate oracle keys prefs now
      = ⟨none, [], [noKeysMsg], (get_available_keys keys prefs now).2⟩ := by
    simp only [generate]
    rw [h]
    rfl
  rw [hg]
  exact ⟨rfl, rfl, rfl, by decide⟩

/-- C3 amended witness: the empty pool. -/
theorem empty_candidates_immediate_witness :
    (generate oracleHttp500 [] defaultPrefs 0).result = none ∧
    (generate oracleHttp500 [] defaultPrefs 0).attempts = [] ∧
    (generate oracleHttp500 [] defaultPrefs 0).logs = [noKeysMsg] ∧
    noKeysMsg ≠ allFailedMsg :=
  empty_candidates_immediate oracleHttp500 [] defaultPrefs 0 rfl

/-- C5 counterexample: one fresh key whose adapter call returns without
exception but with an empty body.  `generate` indeed does not return it
as a success (result is `None`), but — contrary to the claim — it records
*nothing* against the credential: the key's final state equals its initial
state, failure counter still 0, so `mark_failure` was never invoked. -/
theorem empty_body_counterexample :
    (generate oracleEmptyBody [groqFresh] defaultPrefs 0).result = none ∧
    (generate oracleEmptyBody [groqFresh] defaultPrefs 0).states = [groqFresh] ∧
    groqFresh.failures = 0 := by
  decide

/-- C5 amended: an adapter call that completes without exception but with
a falsy (empty or `None`) body is never returned as a success — the loop's
result is whatever the remaining candidates produce — but no failure is
recorded against the attempted credential either: its record passes
through the loop unchanged (the attempt still appears in the invocation
trace).  Only a call that raises an exception reaches `mark_failure`. -/
theorem empty_body_skips_unmarked (oracle : ProviderState → CallResult) (now : Nat)
    (k : ProviderState) (rest : List ProviderState) (t : Option String)
    (hk : oracle k = CallResult.ok t) (ht : truthy t = false) :
    (genLoop oracle now (k :: rest)).result = (genLoop oracle now rest).result ∧
    (genLoop oracle now (k :: rest)).states = k :: (genLoop oracle now rest).states ∧
    (genLoop oracle now (k :: rest)).attempts
      = (k.provider, CallResult.ok t) :: (genLoop oracle now rest).attempts := by
  simp [genLoop, hk, ht]

/-- C5 amended witness: concrete empty-body attempt on a fresh key. -/
theorem empty_body_skips_unmarked_witness :
    (genLoop oracleEmptyBody 0 [groqFresh]).result = (genLoop oracleEmptyBody 0 []).result ∧
    (genLoop oracleEmptyBody 0 [groqFresh]).states
      = groqFresh :: (genLoop oracleEmptyBody 0 []).states ∧
    (genLoop oracleEmptyBody 0 [groqFresh]).attempts
      = (groqFresh.provider, CallResult.ok (some "")) :: (genLoop oracleEmptyBody 0 []).attempts :=
  empty_body_skips_unmarked oracleEmptyBody 0 groqFresh [] (some "") rfl rfl

/-- C6 counterexample: two exhausted `generate` calls with different
attempted (provider, outcome) histories return the identical value `None`
— the returned ExhaustedPool failure carries no list of attempted pairs
(it cannot even distinguish the two histories). -/
theorem exhausted_carries_nothing_counterexample :
    (generate oracleHttp500 [groqFresh] defaultPrefs 0).result =
      (generate oracleHttp429 [nvidiaFresh] defaultPrefs 0).result ∧
    (generate oracleHttp500 [groqFresh] defaultPrefs 0).attempts ≠
      (generate oracleHttp429 [nvidiaFresh] defaultPrefs 0).attempts := by
  decide

/-- C6 amended: when every candidate is tried and all fail, `generate`
returns the bare value `None`; the (provider, outcome) pairs attempted
are observable in the adapter-invocation trace (and the per-attempt log
lines), but they are not carried by the returned failure value. -/
theorem exhaustion_returns_none_with_trace (oracle : ProviderState → CallResult)
    (keys : List ProviderState) (prefs : List String) (now : Nat)
    (hne : (get_available_keys keys prefs now).1 ≠ [])
    (hfail : ∀ k ∈ (get_available_keys keys prefs now).1, failedCall (oracle k) = true) :
    (generate oracle keys prefs now).result = none ∧
    (generate oracle keys prefs now).attempts =
      (get_available_keys keys prefs now).1.map (fun k => (k.provider, oracle k)) ∧
    (generate oracle keys prefs now).logs =
      (genLoop oracle now (get_available_keys keys prefs now).1).logs ++ [allFailedMsg] := by
  have hl := genLoop_all_fail oracle now (get_available_keys keys prefs now).1 hfail
  have hcands : (get_available_keys keys prefs now).1.isEmpty = false := by
    cases hc : (get_available_keys keys prefs now).1
    · exact absurd hc hne
    · rfl
  simp only [generate, hcands, Bool.false_eq_true, if_false, hl.1, Option.isSome_none]
  exact ⟨trivial, hl.2, trivial⟩

/-- C6 amended witness: a single failing groq key. -/
theorem exhaustion_returns_none_with_trace_witness :
    (generate oracleHttp500 [groqFresh] defaultPrefs 0).result = none ∧
    (generate oracleHttp500 [groqFresh] defaultPrefs 0).attempts =
      (get_available_keys [groqFresh] defaultPrefs 0).1.map
        (fun k => (k.provider, oracleHttp500 k)) ∧
    (generate oracleHttp500 [groqFresh] defaultPrefs 0).logs =
      (genLoop oracleHttp500 0 (get_available_keys [groqFresh] defaultPrefs 0).1).logs
        ++ [allFailedMsg] :=
  exhaustion_returns_none_with_trace oracleHttp500 [groqFresh] defaultPrefs 0
    (by decide) (by decide)

/-- A fold step that preserves a predicate preserves it over `foldl`. -/
theorem foldl_preserve {α β : Type} {P : α → Prop} {f : α → β → α}
    (hf : ∀ a b, P a → P (f a b)) : ∀ (l : List β) (a : α), P a → P (l.foldl f a)
  | [], _, h => h
  | b :: l, a, h => foldl_preserve hf l (f a b) (hf a b h)

/-- Set-insertion keeps the collected key list duplicate-free. -/
theorem addKey_nodup (ks : List String) (k : String) (h : ks.Nodup) : (addKey ks k).Nodup := by
  unfold addKey
  split_ifs with hm
  · exact h
  · rw [List.nodup_append]
    refine ⟨h, List.nodup_singleton k, ?_⟩
    intro a ha hb
    rw [List.mem_singleton] at hb
    exact hm (hb ▸ ha)

/-- The CSV loop keeps the collected key list duplicate-free. -/
theorem addCsvVal_nodup (val : String) (ks : List String) (h : ks.Nodup) :
    (addCsvVal ks val).Nodup := by
  unfold addCsvVal
  refine foldl_preserve ?_ _ _ h
  intro a kRaw ha
  dsimp only
  split_ifs with h1
  · exact addKey_nodup a _ ha
  · exact ha

/-- The list-form pass keeps the collected key list duplicate-free. -/
theorem collectListForm_nodup (env : List (String × String)) (vars : List String)
    (ks : List String) (h : ks.Nodup) : (collectListForm env vars ks).Nodup := by
  unfold collectListForm
  refine foldl_preserve ?_ _ _ h
  intro a v ha
  dsimp only
  split_ifs with h1
  · exact addCsvVal_nodup _ a ha
  · exact ha

/-- The numbered-variable pass keeps the collected key list
duplicate-free. -/
theorem collectNumbered_nodup (env : List (String × String)) (pre : String) :
    ∀ (fuel i : Nat) (ks : List String), ks.Nodup →
      (collectNumbered env pre i fuel ks).Nodup := by
  intro fuel
  induction fuel with
  | zero => intro i ks h; exact h
  | succ f ih =>
    intro i ks h
    simp only [collectNumbered]
    apply ih
    split_ifs with hc
    · exact addKey_nodup ks _ h
    · exact h

/-- Each provider's `keys_found` set is duplicate-free. -/
theorem collectKeys_nodup (cfg : ProviderConfig) (env : List (String × String)) :
    (collectKeys cfg env).Nodup := by
  unfold collectKeys
  exact collectNumbered_nodup env cfg.env_numbered cfg.max_numbered 1 _
    (collectListForm_nodup env cfg.env_keys [] List.nodup_nil)

/-- Records built from a key list keep that provider name and draw their
secrets from the list. -/
theorem mkRecords_mem (p : String) : ∀ (i : Nat) (ks : List String) (r : ProviderState),
    r ∈ mkRecords p i ks → r.provider = p ∧ r.key ∈ ks
  | _, [], r, h => absurd h (List.not_mem_nil r)
  | i, k :: ks, r, h => by
    simp only [mkRecords] at h
    rcases List.mem_cons.mp h with h | h
    · subst h
      exact ⟨rfl, List.mem_cons_self _ _⟩
    · obtain ⟨h1, h2⟩ := mkRecords_mem p (i + 1) ks r h
      exact ⟨h1, List.mem_cons_of_mem _ h2⟩

/-- Records built from a duplicate-free key list are pairwise distinct as
(provider, secret) pairs. -/
theorem mkRecords_pairwise (p : String) : ∀ (i : Nat) (ks : List String), ks.Nodup →
    (mkRecords p i ks).Pairwise (fun a b => a.provider ≠ b.provider ∨ a.key ≠ b.key)
  | _, [], _ => List.Pairwise.nil
  | i, k :: ks, h => by
    simp only [mkRecords]
    refine List.Pairwise.cons ?_ (mkRecords_pairwise p (i + 1) ks (List.Nodup.of_cons h))
    intro b hb
    right
    obtain ⟨_, hk⟩ := mkRecords_mem p (i + 1) ks b hb
    intro he
    have he' : k = b.key := he
    exact (List.nodup_cons.mp h).1 (he' ▸ hk)

/-- Every loaded record's provider name comes from the provider table. -/
theorem loadConfigs_mem (env : List (String × String)) :
    ∀ (cfgs : List ProviderConfig) (r : ProviderState), r ∈ loadConfigs env cfgs →
      ∃ cfg ∈ cfgs, r.provider = cfg.name
  | [], r, h => absurd h (List.not_mem_nil r)
  | cfg :: rest, r, h => by
    simp only [loadConfigs] at h
    rcases List.mem_append.mp h with h | h
    · exact ⟨cfg, List.mem_cons_self _ _, (mkRecords_mem cfg.name 0 _ r h).1⟩
    · obtain ⟨c, hc, hcr⟩ := loadConfigs_mem env rest r h
      exact ⟨c, List.mem_cons_of_mem _ hc, hcr⟩

/-- With duplicate-free provider names, the loaded pool is pairwise
distinct as (provider, secret) pairs. -/
theorem loadConfigs_pairwise (env : List (String × String)) :
    ∀ cfgs : List ProviderConfig, (cfgs.map ProviderConfig.name).Nodup →
      (loadConfigs env cfgs).Pairwise (fun a b => a.provider ≠ b.provider ∨ a.key ≠ b.key)
  | [], _ => List.Pairwise.nil
  | cfg :: rest, h => by
    have h' : (cfg.name :: rest.map ProviderConfig.name).Nodup := by simpa using h
    simp only [loadConfigs]
    rw [List.pairwise_append]
    refine ⟨mkRecords_pairwise cfg.name 0 _ (collectKeys_nodup cfg env),
      loadConfigs_pairwise env rest (List.nodup_cons.mp h').2, ?_⟩
    intro a ha b hb
    left
    have ha' := (mkRecords_mem cfg.name 0 _ a ha).1
    obtain ⟨c, hc, hbc⟩ := loadConfigs_mem env rest b hb
    rw [ha', hbc]
    intro he
    exact (List.nodup_cons.mp h').1
      (he ▸ List.mem_map_of_mem ProviderConfig.name hc)

/-- C9: loader deduplication — for every environment no two loaded records
share the same (provider, secret) pair; concretely, supplying the same
groq secret via both the list-form variable and a numbered variable yields
exactly one record, while one identical secret under two different
providers yields two records, one per provider. -/
theorem loader_dedup_invariant :
    (∀ env : List (String × String),
      (load_all_keys env).Pairwise (fun a b => a.provider ≠ b.provider ∨ a.key ≠ b.key)) ∧
    load_all_keys envDup = [ProviderState.mk0 "groq" "groqsecretABCD" 1] ∧
    load_all_keys envCross =
      [ProviderState.mk0 "groq" "sharedsecret99" 1,
       ProviderState.mk0 "nvidia" "sharedsecret99" 1] := by
  refine ⟨fun env => loadConfigs_pairwise env PROVIDERS (by decide), ?_, ?_⟩ <;> rfl
